import Mathlib

/-!
Verification of the MCMC spectral-fitting code of this repository
(`scripts/MCMC/TMC1_four_component.py`).

Embedding conventions: the script's machine floats are embedded as exact
rationals (`ℚ`) wherever it only does field arithmetic and comparisons, and
as reals (`ℝ`) where it takes square roots, exponentials or logarithms.
`Option` encodes the IEEE special values the script relies on: `none` stands
for NaN in the noise estimator's masked channels and for the `-np.inf`
sentinel returned by `lnprior`/`lnprob`.  NumPy arrays are embedded as lists
indexed by channel, with `getD` reads; Python/NumPy slice-endpoint
resolution (negative indices counting from the end, clamping at the bounds)
is embedded exactly by `pyIdx`.
-/

open scoped Classical

/-! ## Physical constants

Modelled from the spec: the constants `cm`, `ckm`, `h`, `k` are imported by
the script from `spectral_simulator/constants.py`, which is not among the
repository files available here; §4.3 of the spec fixes the formulas that
use them (`wavelength = c/ν`, the Planck function `J(T,ν)`).  Their exact
numerical values are irrelevant to every claim below; only positivity of
the speed of light is ever used.  `h` and `k` are named `hPlanck` and
`kBoltz` to avoid clashing with common hypothesis names. -/

/-- Modelled from the spec: speed of light in cm/s (`cm` in
`spectral_simulator/constants.py`). -/
noncomputable def cmC : ℝ := 2.99792458 * 10 ^ 10

/-- Modelled from the spec: speed of light in km/s (`ckm` in
`spectral_simulator/constants.py`). -/
noncomputable def ckm : ℝ := 299792.458

/-- Modelled from the spec: Planck constant in cgs units (`h` in
`spectral_simulator/constants.py`). -/
noncomputable def hPlanck : ℝ := 6.62607015 / 10 ^ 27

/-- Modelled from the spec: Boltzmann constant in cgs units (`k` in
`spectral_simulator/constants.py`). -/
noncomputable def kBoltz : ℝ := 1.380649 / 10 ^ 16

/-! ## PosteriorEvaluator: `is_within_bounds`, `lnprior`, `lnprob` -/

/-- The 14-dimensional parameter vector, in the script's unpacking order:
`source_size1..4, Ncol1..4, Tex, vlsr1..4, dV`. -/
structure Theta where
  source_size1 : ℚ
  source_size2 : ℚ
  source_size3 : ℚ
  source_size4 : ℚ
  Ncol1 : ℚ
  Ncol2 : ℚ
  Ncol3 : ℚ
  Ncol4 : ℚ
  Tex : ℚ
  vlsr1 : ℚ
  vlsr2 : ℚ
  vlsr3 : ℚ
  vlsr4 : ℚ
  dV : ℚ

/-- `is_within_bounds(theta)` from the script: source sizes in (0, 200),
column densities in (0, 1e16), sequential velocity ordering with minimum
separation 0.05 and maximum separation 0.3, `dV < 0.3` and `Tex > 2.7`. -/
def is_within_bounds (θ : Theta) : Prop :=
  (0 < θ.source_size1 ∧ θ.source_size1 < 200) ∧
  (0 < θ.source_size2 ∧ θ.source_size2 < 200) ∧
  (0 < θ.source_size3 ∧ θ.source_size3 < 200) ∧
  (0 < θ.source_size4 ∧ θ.source_size4 < 200) ∧
  (0 < θ.Ncol1 ∧ θ.Ncol1 < 10 ^ 16) ∧
  (0 < θ.Ncol2 ∧ θ.Ncol2 < 10 ^ 16) ∧
  (0 < θ.Ncol3 ∧ θ.Ncol3 < 10 ^ 16) ∧
  (0 < θ.Ncol4 ∧ θ.Ncol4 < 10 ^ 16) ∧
  θ.vlsr1 < θ.vlsr2 - 0.05 ∧ θ.vlsr2 < θ.vlsr3 - 0.05 ∧ θ.vlsr3 < θ.vlsr4 - 0.05 ∧
  θ.vlsr2 < θ.vlsr1 + 0.3 ∧ θ.vlsr3 < θ.vlsr2 + 0.3 ∧ θ.vlsr4 < θ.vlsr3 + 0.3 ∧
  θ.dV < 0.3 ∧ 2.7 < θ.Tex

instance (θ : Theta) : Decidable (is_within_bounds θ) := by
  unfold is_within_bounds; infer_instance

/-- One Gaussian log-prior term
`np.log(1.0/(np.sqrt(2*np.pi)*s)) - 0.5*(x-m)**2/s**2` of `lnprior`. -/
noncomputable def gaussLogTerm (x m s : ℚ) : ℝ :=
  Real.log (1 / (Real.sqrt (2 * Real.pi) * (s : ℝ))) -
    0.5 * ((x : ℝ) - (m : ℝ)) ^ 2 / (s : ℝ) ^ 2

/-- `lnprior(theta, prior_stds, prior_means)` from the script.  The sigmas at
the vlsr positions are overridden to `0.8 * prior_means[13]` and the dV sigma
to `0.3 * prior_means[13]`; no Gaussian term is evaluated for the column
densities (indices 4-7).  Out-of-bounds vectors give the `-np.inf` sentinel,
embedded as `none`. -/
noncomputable def lnprior (θ : Theta) (prior_stds prior_means : Fin 14 → ℚ) : Option ℝ :=
  let s9 : ℚ := prior_means 13 * 0.8
  let s10 : ℚ := prior_means 13 * 0.8
  let s11 : ℚ := prior_means 13 * 0.8
  let s12 : ℚ := prior_means 13 * 0.8
  let s13 : ℚ := prior_means 13 * 0.3
  if is_within_bounds θ then
    some (gaussLogTerm θ.source_size1 (prior_means 0) (prior_stds 0) +
      gaussLogTerm θ.source_size2 (prior_means 1) (prior_stds 1) +
      gaussLogTerm θ.source_size3 (prior_means 2) (prior_stds 2) +
      gaussLogTerm θ.source_size4 (prior_means 3) (prior_stds 3) +
      gaussLogTerm θ.Tex (prior_means 8) (prior_stds 8) +
      gaussLogTerm θ.vlsr1 (prior_means 9) s9 +
      gaussLogTerm θ.vlsr2 (prior_means 10) s10 +
      gaussLogTerm θ.vlsr3 (prior_means 11) s11 +
      gaussLogTerm θ.vlsr4 (prior_means 12) s12 +
      gaussLogTerm θ.dV (prior_means 13) s13)
  else none

/-- `lnprob(theta, datagrid, mol_cat, prior_stds, prior_means)` from the
script, with the likelihood abstracted as an oracle `lnlike` (its `datagrid`
and `mol_cat` arguments are fixed inside the oracle): if `lnprior` is not
finite the function returns `-np.inf` (our `none`) immediately, otherwise
`lnprior + lnlike`. -/
noncomputable def lnprob (lnlike : Theta → ℝ) (θ : Theta)
    (prior_stds prior_means : Fin 14 → ℚ) : Option ℝ :=
  match lnprior θ prior_stds prior_means with
  | none => none
  | some lp => some (lp + lnlike θ)

/-! ## Claims C1, C5, C10 -/

/-- C1: for every 14-parameter vector violating any bound checked by
`is_within_bounds`, `lnprior` returns the `-np.inf` sentinel and `lnprob`
returns it for every likelihood oracle whatsoever - that is, the result does
not depend on `lnlike`, so the forward model (`predict_intensities` /
`make_model`) behind the likelihood is never invoked for such a vector. -/
theorem C1_out_of_bounds_shortcuts (θ : Theta) (prior_stds prior_means : Fin 14 → ℚ)
    (hout : ¬ is_within_bounds θ) :
    lnprior θ prior_stds prior_means = none ∧
      ∀ lnlike : Theta → ℝ, lnprob lnlike θ prior_stds prior_means = none := by
  have hp : lnprior θ prior_stds prior_means = none := by
    simp [lnprior, hout]
  exact ⟨hp, fun lnlike => by simp [lnprob, hp]⟩

/-- A concrete out-of-bounds vector: `Tex = 0 ≤ 2.7` (all entries integral). -/
def thetaOut : Theta := ⟨37, 25, 56, 22, 1, 1, 1, 1, 0, 5.6, 5.7, 5.8, 5.9, 0.1⟩

theorem C1_out_of_bounds_shortcuts_witness :
    lnprior thetaOut (fun _ => 1) (fun _ => 1) = none ∧
      ∀ lnlike : Theta → ℝ, lnprob lnlike thetaOut (fun _ => 1) (fun _ => 1) = none :=
  C1_out_of_bounds_shortcuts thetaOut (fun _ => 1) (fun _ => 1)
    (by norm_num [is_within_bounds, thetaOut])

/-- C5: `lnprior` does not read `prior_stds` at the column-density positions
(indices 4-7) nor at the vlsr/dV positions (indices 9-13), and does not read
`prior_means` at the column-density positions (4-7): two calls agreeing on
`theta`, on `prior_stds` at 0-3 and 8, and on `prior_means` at 0-3 and 8-13
return equal results, because the vlsr sigmas are recomputed as
`0.8*prior_means[13]`, the dV sigma as `0.3*prior_means[13]`, and no
Gaussian prior term is evaluated for the column densities. -/
theorem C5_prior_hyperproperty (θ : Theta) (s m s' m' : Fin 14 → ℚ)
    (hs0 : s 0 = s' 0) (hs1 : s 1 = s' 1) (hs2 : s 2 = s' 2) (hs3 : s 3 = s' 3)
    (hs8 : s 8 = s' 8)
    (hm0 : m 0 = m' 0) (hm1 : m 1 = m' 1) (hm2 : m 2 = m' 2) (hm3 : m 3 = m' 3)
    (hm8 : m 8 = m' 8) (hm9 : m 9 = m' 9) (hm10 : m 10 = m' 10)
    (hm11 : m 11 = m' 11) (hm12 : m 12 = m' 12) (hm13 : m 13 = m' 13) :
    lnprior θ s m = lnprior θ s' m' := by
  simp only [lnprior, hs0, hs1, hs2, hs3, hs8, hm0, hm1, hm2, hm3, hm8, hm9,
    hm10, hm11, hm12, hm13]

/-- Prior vectors for the C5 witness: they agree everywhere except at the
column-density positions (stds and means at index 4, stds at index 10). -/
def priorA : Fin 14 → ℚ := fun _ => 1

/-- Second prior-std vector for the C5 witness, differing from `priorA` at
indices 4 and 10. -/
def priorB : Fin 14 → ℚ := fun i => if i = 4 then 7 else if i = 10 then 9 else 1

/-- Second prior-mean vector for the C5 witness, differing from `priorA` at
index 5. -/
def priorC : Fin 14 → ℚ := fun i => if i = 5 then 3 else 1

theorem C5_prior_hyperproperty_witness :
    lnprior thetaOut priorA priorA = lnprior thetaOut priorB priorC :=
  C5_prior_hyperproperty thetaOut priorA priorA priorB priorC
    rfl rfl rfl rfl rfl rfl rfl rfl rfl rfl rfl rfl rfl rfl rfl

/-- A concrete in-bounds vector with non-positive line width `dV = -1`:
source sizes in (0,200), column densities in (0,1e16), velocities
`5.6 < 5.7 < 5.8 < 5.9` with spacings 0.1 inside (0.05, 0.3), `Tex = 6`. -/
def thetaNegDV : Theta := ⟨37, 25, 56, 22, 10 ^ 10, 10 ^ 10, 10 ^ 10, 10 ^ 10,
  6, 5.6, 5.7, 5.8, 5.9, -1⟩

/-- C10: `is_within_bounds` places no lower bound on the line width: the
concrete vector `thetaNegDV` has `dV = -1 ≤ 0`, satisfies every other
checked constraint, passes `is_within_bounds`, and `lnprior` consequently
returns a finite value (not the `-np.inf` sentinel) for it under every
prior specification. -/
theorem C10_no_lower_bound_on_dV :
    thetaNegDV.dV ≤ 0 ∧ is_within_bounds thetaNegDV ∧
      ∀ prior_stds prior_means : Fin 14 → ℚ,
        lnprior thetaNegDV prior_stds prior_means ≠ none := by
  have hb : is_within_bounds thetaNegDV := by
    norm_num [is_within_bounds, thetaNegDV]
  refine ⟨by norm_num [thetaNegDV], hb, fun s m => ?_⟩
  simp [lnprior, hb]

/-! ## ForwardModel: `apply_beam` and `make_model` -/

/-- `apply_beam(frequency, intensity, source_size, dish_size)` from the
script, per channel: `wavelength = cm/(frequency*1e6)`,
`beam_size = wavelength * 206265 * 1.22 / dish_size`,
`dilution_factor = source_size**2/(beam_size**2 + source_size**2)`, and the
result is `intensity * dilution_factor`. -/
noncomputable def apply_beam (frequency intensity source_size dish_size : ℝ) : ℝ :=
  let wavelength := cmC / (frequency * 10 ^ 6)
  let beam_size := wavelength * 206265 * 1.22 / dish_size
  let dilution_factor := source_size ^ 2 / (beam_size ^ 2 + source_size ^ 2)
  intensity * dilution_factor

/-- The contribution of one velocity component at one channel of `make_model`:
sum over the selected lines `i` of
`ints[i]*np.exp(-0.5*((vel_grid-vlsr)/(dV/2.355))**2)` on the mask
`np.abs(vel_grid-5.8) < dV*10`, with `vel_grid = (freqs1[i]-f0)/freqs1[i]*ckm`.
The velocity grid is built from `freqs1` (the first component's line
frequencies) for all four components, as in the script. -/
noncomputable def componentAt (freqs1 ints : List ℝ) (f0 vlsr dV : ℝ) : ℝ :=
  ((freqs1.zip ints).map fun p =>
    let vel := (p.1 - f0) / p.1 * ckm
    if |vel - 5.8| < dV * 10 then
      p.2 * Real.exp (-0.5 * ((vel - vlsr) / (dV / 2.355)) ^ 2)
    else 0).sum

/-- `make_model` from the script, per channel `f0` of `datagrid0`: the four
Gaussian optical-depth accumulators, the Planck terms
`J_T = (h*f0*1e6/k)*(exp(h*f0*1e6/(k*Tex)) - 1)^(-1)` and `J_Tbg` at 2.7 K,
the conversion `(J_T - J_Tbg)*(1 - exp(-model))` and the beam dilution with
dish size 100, summed over the four components.  `datagrid1` is used by the
script only for its shape (equal to that of `datagrid0`). -/
noncomputable def make_model (freqs1 freqs2 freqs3 freqs4 ints1 ints2 ints3 ints4 : List ℝ)
    (ss1 ss2 ss3 ss4 : ℝ) (datagrid0 datagrid1 : List ℝ)
    (vlsr1 vlsr2 vlsr3 vlsr4 dV Tex : ℝ) : List ℝ :=
  datagrid0.map fun f0 =>
    let J_T := (hPlanck * f0 * 10 ^ 6 / kBoltz) *
      (Real.exp ((hPlanck * f0 * 10 ^ 6) / (kBoltz * Tex)) - 1)⁻¹
    let J_Tbg := (hPlanck * f0 * 10 ^ 6 / kBoltz) *
      (Real.exp ((hPlanck * f0 * 10 ^ 6) / (kBoltz * 2.7)) - 1)⁻¹
    apply_beam f0 ((J_T - J_Tbg) * (1 - Real.exp (-componentAt freqs1 ints1 f0 vlsr1 dV))) ss1 100 +
    apply_beam f0 ((J_T - J_Tbg) * (1 - Real.exp (-componentAt freqs1 ints2 f0 vlsr2 dV))) ss2 100 +
    apply_beam f0 ((J_T - J_Tbg) * (1 - Real.exp (-componentAt freqs1 ints3 f0 vlsr3 dV))) ss3 100 +
    apply_beam f0 ((J_T - J_Tbg) * (1 - Real.exp (-componentAt freqs1 ints4 f0 vlsr4 dV))) ss4 100

theorem apply_beam_zero_intensity (f ss d : ℝ) : apply_beam f 0 ss d = 0 := by
  simp [apply_beam]

theorem componentAt_zero_ints (freqs1 ints : List ℝ) (f0 vlsr dV : ℝ)
    (hz : ∀ x ∈ ints, x = 0) : componentAt freqs1 ints f0 vlsr dV = 0 := by
  apply List.sum_eq_zero
  intro y hy
  rcases List.mem_map.mp hy with ⟨p, hp, rfl⟩
  have hp2 : p.2 = 0 := hz p.2 (List.of_mem_zip hp).2
  by_cases hmask : |(p.1 - f0) / p.1 * ckm - 5.8| < dV * 10 <;> simp [hmask, hp2]


/-! ## Claims C8 and C9 -/

/-- C8 counterexample: `apply_beam` is not monotonically increasing in
`source_size` for EVERY fixed frequency, dish size and intensity, as the
claim quantifies: at the negative intensity -1 (frequency 29979.2458 MHz,
dish size 100), growing the source size from 0 to 1 strictly DECREASES the
output, because the dilution factor grows while it multiplies a negative
intensity. -/
theorem C8_beam_monotone_cex :
    apply_beam 29979.2458 (-1) 1 100 < apply_beam 29979.2458 (-1) 0 100 := by
  have h1 : cmC / (29979.2458 * 10 ^ 6) = 1 := by norm_num [cmC]
  simp only [apply_beam, h1]
  norm_num

/-- The beam-dilution factor `s^2/(b^2+s^2)` of `apply_beam` is monotone in
the source size `s` on `s ≥ 0`. -/
theorem dilution_factor_mono (b s1 s2 : ℝ) (h0 : 0 ≤ s1) (h12 : s1 ≤ s2) :
    s1 ^ 2 / (b ^ 2 + s1 ^ 2) ≤ s2 ^ 2 / (b ^ 2 + s2 ^ 2) := by
  rcases eq_or_lt_of_le (by positivity : (0:ℝ) ≤ b ^ 2 + s1 ^ 2) with h | h
  · rw [← h]
    simp only [div_zero]
    positivity
  · have h2 : (0:ℝ) < b ^ 2 + s2 ^ 2 := by nlinarith
    rw [div_le_div_iff₀ h h2]
    nlinarith [sq_nonneg b, pow_le_pow_left₀ h0 h12 2]

/-- C8 amended: for fixed frequency, dish size and NONNEGATIVE intensity,
`apply_beam` is monotonically increasing in the source size on the physical
domain `source_size ≥ 0`; and for every fixed frequency, dish size and
intensity the output tends to the undiluted intensity as the source size
tends to infinity. -/
theorem C8_beam_dilution_amended :
    (∀ f I d s1 s2 : ℝ, 0 ≤ I → 0 ≤ s1 → s1 ≤ s2 →
      apply_beam f I s1 d ≤ apply_beam f I s2 d) ∧
    (∀ f I d : ℝ,
      Filter.Tendsto (fun ss => apply_beam f I ss d) Filter.atTop (nhds I)) := by
  constructor
  · intro f I d s1 s2 hI h0 h12
    simp only [apply_beam]
    exact mul_le_mul_of_nonneg_left (dilution_factor_mono _ s1 s2 h0 h12) hI
  · intro f I d
    simp only [apply_beam]
    set b : ℝ := cmC / (f * 10 ^ 6) * 206265 * 1.22 / d with hbdef
    have hD : Filter.Tendsto (fun s : ℝ => b ^ 2 + s ^ 2) Filter.atTop Filter.atTop :=
      Filter.tendsto_atTop_add_const_left _ _ (Filter.tendsto_pow_atTop two_ne_zero)
    have h0 : Filter.Tendsto (fun s : ℝ => b ^ 2 / (b ^ 2 + s ^ 2))
        Filter.atTop (nhds 0) := Filter.Tendsto.div_atTop tendsto_const_nhds hD
    have h1 : Filter.Tendsto (fun s : ℝ => 1 - b ^ 2 / (b ^ 2 + s ^ 2))
        Filter.atTop (nhds (1 - 0)) := tendsto_const_nhds.sub h0
    have heq : ∀ᶠ s : ℝ in Filter.atTop,
        1 - b ^ 2 / (b ^ 2 + s ^ 2) = s ^ 2 / (b ^ 2 + s ^ 2) := by
      filter_upwards [Filter.eventually_ge_atTop (1:ℝ)] with s hs
      have hpos : (0:ℝ) < b ^ 2 + s ^ 2 := by nlinarith
      rw [one_sub_div hpos.ne']
      ring_nf
    have h2 : Filter.Tendsto (fun s : ℝ => s ^ 2 / (b ^ 2 + s ^ 2))
        Filter.atTop (nhds 1) := by
      simpa using h1.congr' heq
    have h3 := h2.const_mul I
    simpa using h3

/-- C9: `make_model` returns the all-zero channel array whenever the
per-line amplitude (optical depth) inputs `ints1..ints4` are all zero, and
likewise when the line arrays are empty (zero selected lines); the empty
case is total (no exception) and the line loop contributes zero. -/
theorem C9_zero_amplitude_zero_model :
    (∀ (freqs1 freqs2 freqs3 freqs4 ints1 ints2 ints3 ints4 : List ℝ)
      (ss1 ss2 ss3 ss4 : ℝ) (datagrid0 datagrid1 : List ℝ)
      (vlsr1 vlsr2 vlsr3 vlsr4 dV Tex : ℝ),
      (∀ x ∈ ints1, x = 0) → (∀ x ∈ ints2, x = 0) →
      (∀ x ∈ ints3, x = 0) → (∀ x ∈ ints4, x = 0) →
      make_model freqs1 freqs2 freqs3 freqs4 ints1 ints2 ints3 ints4
        ss1 ss2 ss3 ss4 datagrid0 datagrid1 vlsr1 vlsr2 vlsr3 vlsr4 dV Tex =
        List.replicate datagrid0.length 0) ∧
    (∀ (ss1 ss2 ss3 ss4 : ℝ) (datagrid0 datagrid1 : List ℝ)
      (vlsr1 vlsr2 vlsr3 vlsr4 dV Tex : ℝ),
      make_model [] [] [] [] [] [] [] [] ss1 ss2 ss3 ss4 datagrid0 datagrid1
        vlsr1 vlsr2 vlsr3 vlsr4 dV Tex = List.replicate datagrid0.length 0) := by
  have main : ∀ (freqs1 freqs2 freqs3 freqs4 ints1 ints2 ints3 ints4 : List ℝ)
      (ss1 ss2 ss3 ss4 : ℝ) (datagrid0 datagrid1 : List ℝ)
      (vlsr1 vlsr2 vlsr3 vlsr4 dV Tex : ℝ),
      (∀ x ∈ ints1, x = 0) → (∀ x ∈ ints2, x = 0) →
      (∀ x ∈ ints3, x = 0) → (∀ x ∈ ints4, x = 0) →
      make_model freqs1 freqs2 freqs3 freqs4 ints1 ints2 ints3 ints4
        ss1 ss2 ss3 ss4 datagrid0 datagrid1 vlsr1 vlsr2 vlsr3 vlsr4 dV Tex =
        List.replicate datagrid0.length 0 := by
    intro freqs1 freqs2 freqs3 freqs4 ints1 ints2 ints3 ints4 ss1 ss2 ss3 ss4
      datagrid0 datagrid1 vlsr1 vlsr2 vlsr3 vlsr4 dV Tex hz1 hz2 hz3 hz4
    have hlen : (make_model freqs1 freqs2 freqs3 freqs4 ints1 ints2 ints3 ints4
        ss1 ss2 ss3 ss4 datagrid0 datagrid1 vlsr1 vlsr2 vlsr3 vlsr4 dV Tex).length =
        datagrid0.length := by
      simp [make_model]
    rw [← hlen]
    apply List.eq_replicate_of_mem
    intro b hb
    rcases List.mem_map.mp hb with ⟨f0, _, rfl⟩
    simp [componentAt_zero_ints _ _ _ _ _ hz1, componentAt_zero_ints _ _ _ _ _ hz2,
      componentAt_zero_ints _ _ _ _ _ hz3, componentAt_zero_ints _ _ _ _ _ hz4,
      apply_beam_zero_intensity]
  refine ⟨main, fun ss1 ss2 ss3 ss4 datagrid0 datagrid1 vlsr1 vlsr2 vlsr3 vlsr4 dV Tex =>
    main [] [] [] [] [] [] [] [] ss1 ss2 ss3 ss4 datagrid0 datagrid1
      vlsr1 vlsr2 vlsr3 vlsr4 dV Tex ?_ ?_ ?_ ?_⟩ <;> simp

/-- Witness instantiating C9 at a concrete input: one line at 23000 MHz with
zero amplitude in all four components, one channel. -/
theorem C9_zero_amplitude_zero_model_witness :
    make_model [23000] [23000] [23000] [23000] [0] [0] [0] [0] 30 30 30 30
      [23000.1] [1] 5.6 5.7 5.8 5.9 0.1 7 = [0] :=
  C9_zero_amplitude_zero_model.1 [23000] [23000] [23000] [23000] [0] [0] [0] [0]
    30 30 30 30 [23000.1] [1] 5.6 5.7 5.8 5.9 0.1 7
    (by simp) (by simp) (by simp) (by simp)

/-! ## NoiseEstimator: `calc_noise_std`

The intensity window is a list of rationals; the working copy `noise` is a
list of `Option ℚ` where `none` is a masked (NaN) channel.  `np.nanmean` /
`np.nanstd` ignore `none` entries and give `none` on an all-masked list.
The script compares against `std = sqrt(var)`, which is irrational, so the
outlier tests live in `ℝ`; the state carries the rational variance and the
comparisons take its real square root exactly as the script's formulas do. -/

/-- The channels of `l` that are not NaN. -/
def validVals (l : List (Option ℚ)) : List ℚ := l.filterMap id

/-- `np.nanmean`: mean over non-NaN entries, NaN (`none`) if there are none. -/
def nanmean (l : List (Option ℚ)) : Option ℚ :=
  if validVals l = [] then none
  else some ((validVals l).sum / (validVals l).length)

/-- The (population) variance over non-NaN entries, NaN (`none`) if there are
none; `np.nanstd` is its square root. -/
def nanvar (l : List (Option ℚ)) : Option ℚ :=
  match nanmean l with
  | none => none
  | some μ => some (((validVals l).map fun x => (x - μ) ^ 2).sum / (validVals l).length)

/-- `np.nanstd` as the real square root of the rational variance. -/
noncomputable def nanstdOf (v? : Option ℚ) : Option ℝ :=
  v?.map fun q : ℚ => Real.sqrt (q : ℝ)

/-- The low-outlier channels of one clip cycle:
`np.where(dummy_ints - mean < (-std*threshold))[0]`, where `mean`/`std` may
be NaN (`none`), in which case the comparison is false for every channel. -/
noncomputable def outLow (dummy : List ℚ) (mean? var? : Option ℚ) (threshold : ℚ) : List ℕ :=
  (List.range dummy.length).filter fun chan =>
    decide (match mean?, var? with
      | some m, some v =>
        ((dummy.getD chan 0 : ℚ) : ℝ) - (m : ℝ) < -(Real.sqrt (v : ℝ) * (threshold : ℝ))
      | _, _ => False)

/-- The high-outlier channels of one clip cycle:
`np.where(dummy_ints - mean > (std*threshold))[0]`. -/
noncomputable def outHigh (dummy : List ℚ) (mean? var? : Option ℚ) (threshold : ℚ) : List ℕ :=
  (List.range dummy.length).filter fun chan =>
    decide (match mean?, var? with
      | some m, some v =>
        ((dummy.getD chan 0 : ℚ) : ℝ) - (m : ℝ) > Real.sqrt (v : ℝ) * (threshold : ℝ)
      | _, _ => False)

/-- Resolution of a Python slice endpoint `a` against a list of length `n`:
a negative endpoint counts from the end (`n + a`), and endpoints clamp to
`[0, n]`.  NumPy 1-D slicing follows these exact rules. -/
def pyIdx (a : Int) (n : ℕ) : ℕ := (if a < 0 then max (a + n) 0 else min a n).toNat

/-- The slice assignment `noise[a:b] = np.nan` on a channel list: every
channel with `pyIdx a n ≤ i < pyIdx b n` becomes NaN. -/
def sliceMask (a b : Int) (l : List (Option ℚ)) : List (Option ℚ) :=
  (List.range l.length).map fun i =>
    if pyIdx a l.length ≤ i ∧ i < pyIdx b l.length then none else l.getD i (some 0)

/-- `noise[chan-10:chan+10] = np.nan` for every outlier channel, in order. -/
def maskChans (chans : List ℕ) (l : List (Option ℚ)) : List (Option ℚ) :=
  chans.foldl (fun acc (c : ℕ) => sliceMask ((c : Int) - 10) ((c : Int) + 10) acc) l

/-- The running state of `calc_noise_std`: the partially masked `noise`
array and the current mean and variance (their square root is the current
std). -/
structure NoiseState where
  noise : List (Option ℚ)
  mean? : Option ℚ
  var? : Option ℚ

/-- One clip-and-recompute cycle of `calc_noise_std`: mask the ±10-channel
slices around the low and high outliers of `dummy` with respect to the
state's current mean/std, then recompute `nanmean`/`nanstd` on the masked
remainder. -/
noncomputable def clipOnce (dummy : List ℚ) (threshold : ℚ) (st : NoiseState) : NoiseState :=
  let masked := maskChans
    (outLow dummy st.mean? st.var? threshold ++ outHigh dummy st.mean? st.var? threshold)
    st.noise
  ⟨masked, nanmean masked, nanvar masked⟩

/-- The initial state of `calc_noise_std`: the unmasked copy of the window
with its global mean and variance (`dummy_mean`, `dummy_std`). -/
def initNoise (intensity : List ℚ) : NoiseState :=
  ⟨intensity.map some, nanmean (intensity.map some), nanvar (intensity.map some)⟩

/-- `calc_noise_std(intensity, threshold=3.5)` from the script: three
clip-and-recompute cycles (the first against the global mean/std, the next
two against the recomputed ones), returning the final `(mean, std)`. -/
noncomputable def calc_noise_std (intensity : List ℚ) (threshold : ℚ) : Option ℚ × Option ℝ :=
  let s := clipOnce intensity threshold (clipOnce intensity threshold
    (clipOnce intensity threshold (initNoise intensity)))
  (s.mean?, nanstdOf s.var?)

/-! ## LineWindowExtractor: `read_file`

The spectrum file's two arrays become explicit list arguments `freqs0`
(frequency axis) and `intensity`; `restfreqs` and `int_sim` are the
candidate rest frequencies and their simulated intensities; `plot` has no
effect on the returned data and is dropped. -/

/-- The velocity a channel at frequency `f` has relative to rest frequency
`rf`: `vel = (rf - freqs)/rf*300000 + shift`. -/
def velAt (rf shift f : ℚ) : ℚ := (rf - f) / rf * 300000 + shift

/-- The script's channel-selection window `(vel < (.3+6.)) & (vel > (-.3+5.6))`. -/
def velWindow (v : ℚ) : Bool := decide (v < 0.3 + 6) && decide (v > -0.3 + 5.6)

/-- `locs = np.where(...)` of `read_file`: the channels of `freqs` whose
velocity relative to `rf` falls in the selection window. -/
def selectLocs (rf shift : ℚ) (freqs : List ℚ) : List ℕ :=
  (List.range freqs.length).filter fun i => velWindow (velAt rf shift (freqs.getD i 0))

/-- `np.max` of a window (the script only evaluates it on nonempty windows;
the `[]` default 0 is never reached under the `locs` nonemptiness guard). -/
def maxD (l : List ℚ) : ℚ :=
  match l with
  | [] => 0
  | x :: xs => xs.foldl max x

/-- The accumulator state of `read_file`'s line loop: `relevant_freqs`,
`relevant_intensity`, `relevant_yerrs` and `covered_trans`. -/
structure RFState where
  rfreqs : List ℚ
  rints : List ℚ
  ryerrs : List (Option ℝ)
  covered : List ℕ

/-- The per-point uncertainty
`np.sqrt(noise_std**2 + (intensity*0.1)**2)` written into
`relevant_yerrs[locs]`; NaN (`none`) when the noise std is NaN. -/
noncomputable def yerrAt (std? : Option ℝ) (x : ℚ) : Option ℝ :=
  std?.map fun s => Real.sqrt (s ^ 2 + ((x : ℚ) * 0.1 : ℚ) ^ 2)

/-- The array write `dst[locs] = src[locs]`. -/
def writeIdx (locs : List ℕ) (src dst : List ℚ) : List ℚ :=
  (List.range dst.length).map fun i => if i ∈ locs then src.getD i 0 else dst.getD i 0

/-- The array write `relevant_yerrs[locs] = np.sqrt(...)`. -/
noncomputable def writeYerr (locs : List ℕ) (std? : Option ℝ) (intensity : List ℚ)
    (dst : List (Option ℝ)) : List (Option ℝ) :=
  (List.range dst.length).map fun i =>
    if i ∈ locs then yerrAt std? (intensity.getD i 0) else dst.getD i (some 0)

/-- The interloper test `np.max(intensity[locs]) > 6*noise_std`; false when
the noise std is NaN (`none`), as every NaN comparison is. -/
def interloper (windowMax : ℚ) (std? : Option ℝ) : Prop :=
  match std? with
  | some s => (windowMax : ℝ) > 6 * s
  | none => False

/-- One iteration of `read_file`'s rest-frequency loop, for line index `i`
with rest frequency `rf`: skip insignificant lines
(`int_sim[i] <= 0.05*max(int_sim)`), skip empty windows, drop interloping
windows when `block_interlopers` is set, and otherwise record the line index
and write the window's channels into the accumulator arrays. -/
noncomputable def processLine (block_interlopers : Bool) (freqs intensity int_sim : List ℚ)
    (shift : ℚ) (st : RFState) (i : ℕ) (rf : ℚ) : RFState :=
  if int_sim.getD i 0 > 0.05 * maxD int_sim then
    let locs := selectLocs rf shift freqs
    if locs ≠ [] then
      let ns := calc_noise_std (locs.map fun j => intensity.getD j 0) 3.5
      if block_interlopers = true ∧ interloper (maxD (locs.map fun j => intensity.getD j 0)) ns.2 then
        st
      else
        ⟨writeIdx locs freqs st.rfreqs, writeIdx locs intensity st.rints,
          writeYerr locs ns.2 intensity st.ryerrs, st.covered ++ [i]⟩
    else st
  else st

/-- `read_file` from the script: the `GHz` flag scales the frequency axis,
the loop over `enumerate(restfreqs)` accumulates the per-line windows, and
the final mask `relevant_freqs > 0` filters the three arrays down to the
channels actually written.  Returns
`(relevant_freqs, relevant_intensity, relevant_yerrs, covered_trans)`. -/
noncomputable def read_file (freqs0 intensity restfreqs int_sim : List ℚ) (shift : ℚ)
    (GHz block_interlopers : Bool) : List ℚ × List ℚ × List (Option ℝ) × List ℕ :=
  let freqs := if GHz then freqs0.map (fun f => f * 1000) else freqs0
  let init : RFState := ⟨List.replicate freqs.length 0, List.replicate intensity.length 0,
    List.replicate freqs.length (some 0), []⟩
  let fin := restfreqs.enum.foldl
    (fun st p => processLine block_interlopers freqs intensity int_sim shift st p.1 p.2) init
  let kept := (List.range fin.rfreqs.length).filter fun i => decide (0 < fin.rfreqs.getD i 0)
  (kept.map fun i => fin.rfreqs.getD i 0, kept.map fun i => fin.rints.getD i 0,
    kept.map fun i => fin.ryerrs.getD i (some 0), fin.covered)

/-! ## Claims C2 and C7 -/

/-- C2 counterexample: the channel at 299993.6 MHz has velocity 6.4 km/s
relative to the rest frequency 300000 MHz (shift 0), which lies strictly
inside the claim's window `(5.6-0.3, 6.3+0.3)`, yet `read_file`'s channel
selection (`selectLocs`, the embedded `np.where` filter) does not select it:
the script's upper cut is `.3+6. = 6.3`, not `6.3+0.3`. -/
theorem C2_window_cex :
    5.6 - 0.3 < velAt 300000 0 299993.6 ∧ velAt 300000 0 299993.6 < 6.3 + 0.3 ∧
      selectLocs 300000 0 [299993.6] = [] := by
  refine ⟨by norm_num [velAt], by norm_num [velAt], ?_⟩
  norm_num [selectLocs, velWindow, velAt, List.range_succ]

/-- C2 amended: for each candidate rest frequency, `read_file` selects
exactly the channels whose velocity `(rf - f)/rf*300000 + shift` lies
strictly inside the interval obtained by extending the `[5.6, 6.0]` km/s
center interval by `(-0.3, +0.3)` - that is, `5.6 - 0.3 < v < 6.0 + 0.3` -
and no channel outside that open interval is selected. -/
theorem C2_window_amended (rf shift : ℚ) (freqs : List ℚ) (i : ℕ) :
    i ∈ selectLocs rf shift freqs ↔
      i < freqs.length ∧ 5.6 - 0.3 < velAt rf shift (freqs.getD i 0) ∧
        velAt rf shift (freqs.getD i 0) < 6.0 + 0.3 := by
  simp only [selectLocs, List.mem_filter, List.mem_range, velWindow,
    Bool.and_eq_true, decide_eq_true_eq]
  constructor
  · rintro ⟨h1, h2, h3⟩
    exact ⟨h1, by linarith, by linarith⟩
  · rintro ⟨h1, h2, h3⟩
    exact ⟨h1, by linarith, by linarith⟩

/-- A line index enters `covered_trans` in one loop step only if it is the
step's own index and its simulated intensity exceeds the 5% threshold. -/
theorem processLine_covered_mem (block : Bool) (freqs intensity int_sim : List ℚ)
    (shift : ℚ) (st : RFState) (j i : ℕ) (rf : ℚ)
    (h : i ∈ (processLine block freqs intensity int_sim shift st j rf).covered) :
    i ∈ st.covered ∨ (i = j ∧ int_sim.getD j 0 > 0.05 * maxD int_sim) := by
  by_cases h1 : int_sim.getD j 0 > 0.05 * maxD int_sim
  · by_cases h2 : selectLocs rf shift freqs ≠ []
    · by_cases h3 : block = true ∧ interloper
        (maxD ((selectLocs rf shift freqs).map fun j => intensity.getD j 0))
        (calc_noise_std ((selectLocs rf shift freqs).map fun j => intensity.getD j 0) 3.5).2
      · rw [processLine, if_pos h1, if_pos h2, if_pos h3] at h
        exact Or.inl h
      · rw [processLine, if_pos h1, if_pos h2, if_neg h3] at h
        rcases List.mem_append.mp h with hl | hr
        · exact Or.inl hl
        · exact Or.inr ⟨List.mem_singleton.mp hr, h1⟩
    · rw [processLine, if_pos h1, if_neg h2] at h
      exact Or.inl h
  · rw [processLine, if_neg h1] at h
    exact Or.inl h

/-- Indices in the covered list after folding the line loop all satisfy the
5% significance threshold (or were already present initially). -/
theorem foldl_covered_mem (block : Bool) (freqs intensity int_sim : List ℚ) (shift : ℚ) :
    ∀ (ps : List (ℕ × ℚ)) (st : RFState) (i : ℕ),
      i ∈ (ps.foldl (fun st p =>
        processLine block freqs intensity int_sim shift st p.1 p.2) st).covered →
      i ∈ st.covered ∨ int_sim.getD i 0 > 0.05 * maxD int_sim := by
  intro ps
  induction ps with
  | nil => intro st i h; exact Or.inl h
  | cons p ps ih =>
    intro st i h
    rcases ih _ i h with hmem | hP
    · rcases processLine_covered_mem block freqs intensity int_sim shift st p.1 i p.2 hmem with
        hl | hr
      · exact Or.inl hl
      · exact Or.inr (hr.1 ▸ hr.2)
    · exact Or.inr hP

/-- C7: an index `i` appears in `read_file`'s returned `covered_trans` only
if `int_sim[i]` strictly exceeds 5% of `max(int_sim)`; moreover a
below-threshold line's loop iteration is the identity on the accumulator
state, so it contributes no channels to the output arrays. -/
theorem C7_insignificant_lines_skipped :
    (∀ (freqs0 intensity restfreqs int_sim : List ℚ) (shift : ℚ) (GHz block : Bool) (i : ℕ),
      i ∈ (read_file freqs0 intensity restfreqs int_sim shift GHz block).2.2.2 →
      int_sim.getD i 0 > 0.05 * maxD int_sim) ∧
    (∀ (block : Bool) (freqs intensity int_sim : List ℚ) (shift : ℚ)
      (st : RFState) (i : ℕ) (rf : ℚ),
      ¬ int_sim.getD i 0 > 0.05 * maxD int_sim →
      processLine block freqs intensity int_sim shift st i rf = st) := by
  constructor
  · intro freqs0 intensity restfreqs int_sim shift GHz block i h
    have h' := h
    simp only [read_file] at h'
    rcases foldl_covered_mem block _ intensity int_sim shift restfreqs.enum _ i h' with
      habs | hP
    · simp at habs
    · exact hP
  · intro block freqs intensity int_sim shift st i rf h
    rw [processLine, if_neg h]

/-! ## Rational evaluation bridges for the real-valued outlier tests -/

/-- The low-outlier test `x - m < -(sqrt(v)*t)` is, for `t, v ≥ 0`, the
rational condition `x - m < 0 ∧ (x - m)^2 > t^2*v`. -/
theorem outLow_sq (dummy : List ℚ) (m v t : ℚ) (ht : 0 ≤ t) (hv : 0 ≤ v) :
    outLow dummy (some m) (some v) t =
      (List.range dummy.length).filter fun chan =>
        decide (dummy.getD chan 0 - m < 0 ∧ (dummy.getD chan 0 - m) ^ 2 > t ^ 2 * v) := by
  unfold outLow
  apply List.filter_congr
  intro i _
  apply decide_eq_decide.mpr
  set x : ℚ := dummy.getD i 0 with hx
  have hv' : (0:ℝ) ≤ (v:ℝ) := by exact_mod_cast hv
  have hs := Real.sq_sqrt hv'
  have hsn := Real.sqrt_nonneg (v:ℝ)
  constructor
  · intro h
    have hst : (0:ℝ) ≤ Real.sqrt (v:ℝ) * (t:ℝ) := by positivity
    have hneg : (x:ℝ) - (m:ℝ) < 0 := lt_of_lt_of_le h (by linarith)
    have hsq : ((x:ℝ) - m) ^ 2 > (Real.sqrt (v:ℝ) * t) ^ 2 := by nlinarith
    rw [mul_pow, hs] at hsq
    refine ⟨by exact_mod_cast hneg, ?_⟩
    have : ((x - m : ℚ) : ℝ) ^ 2 > ((t ^ 2 * v : ℚ) : ℝ) := by push_cast; nlinarith [hsq]
    exact_mod_cast this
  · rintro ⟨h1, h2⟩
    have h1' : (x:ℝ) - m < 0 := by exact_mod_cast h1
    have h2' : ((x:ℝ) - m) ^ 2 > (t:ℝ) ^ 2 * (v:ℝ) := by
      have : ((x - m : ℚ) : ℝ) ^ 2 > ((t ^ 2 * v : ℚ) : ℝ) := by exact_mod_cast h2
      push_cast at this
      nlinarith [this]
    nlinarith

/-- The high-outlier test `x - m > sqrt(v)*t` is, for `t, v ≥ 0`, the
rational condition `x - m > 0 ∧ (x - m)^2 > t^2*v`. -/
theorem outHigh_sq (dummy : List ℚ) (m v t : ℚ) (ht : 0 ≤ t) (hv : 0 ≤ v) :
    outHigh dummy (some m) (some v) t =
      (List.range dummy.length).filter fun chan =>
        decide (dummy.getD chan 0 - m > 0 ∧ (dummy.getD chan 0 - m) ^ 2 > t ^ 2 * v) := by
  unfold outHigh
  apply List.filter_congr
  intro i _
  apply decide_eq_decide.mpr
  set x : ℚ := dummy.getD i 0 with hx
  have hv' : (0:ℝ) ≤ (v:ℝ) := by exact_mod_cast hv
  have hs := Real.sq_sqrt hv'
  have hsn := Real.sqrt_nonneg (v:ℝ)
  constructor
  · intro h
    have hst : (0:ℝ) ≤ Real.sqrt (v:ℝ) * (t:ℝ) := by positivity
    have hpos : (0:ℝ) < (x:ℝ) - (m:ℝ) := lt_of_le_of_lt hst h
    have hsq : ((x:ℝ) - m) ^ 2 > (Real.sqrt (v:ℝ) * t) ^ 2 := by nlinarith
    rw [mul_pow, hs] at hsq
    refine ⟨by exact_mod_cast hpos, ?_⟩
    have : ((x - m : ℚ) : ℝ) ^ 2 > ((t ^ 2 * v : ℚ) : ℝ) := by push_cast; nlinarith [hsq]
    exact_mod_cast this
  · rintro ⟨h1, h2⟩
    have h1' : (0:ℝ) < (x:ℝ) - m := by exact_mod_cast h1
    have h2' : ((x:ℝ) - m) ^ 2 > (t:ℝ) ^ 2 * (v:ℝ) := by
      have : ((x - m : ℚ) : ℝ) ^ 2 > ((t ^ 2 * v : ℚ) : ℝ) := by exact_mod_cast h2
      push_cast at this
      nlinarith [this]
    nlinarith

/-- The interloper test `max > 6*sqrt(v)` is, for `v ≥ 0`, the rational
condition `0 < max ∧ max^2 > 36*v`. -/
theorem interloper_sq (wmax v : ℚ) (hv : 0 ≤ v) :
    interloper wmax (nanstdOf (some v)) ↔ 0 < wmax ∧ wmax ^ 2 > 36 * v := by
  have hv' : (0:ℝ) ≤ (v:ℝ) := by exact_mod_cast hv
  have hs := Real.sq_sqrt hv'
  have hsn := Real.sqrt_nonneg (v:ℝ)
  simp only [interloper, nanstdOf, Option.map_some']
  constructor
  · intro h
    have hst : (0:ℝ) ≤ 6 * Real.sqrt (v:ℝ) := by positivity
    have hpos : (0:ℝ) < (wmax:ℝ) := lt_of_le_of_lt hst h
    have hsq : (wmax:ℝ) ^ 2 > (6 * Real.sqrt (v:ℝ)) ^ 2 := by nlinarith
    rw [mul_pow, hs] at hsq
    refine ⟨by exact_mod_cast hpos, ?_⟩
    have : ((wmax : ℚ) : ℝ) ^ 2 > ((36 * v : ℚ) : ℝ) := by push_cast; nlinarith [hsq]
    exact_mod_cast this
  · rintro ⟨h1, h2⟩
    have h1' : (0:ℝ) < (wmax:ℝ) := by exact_mod_cast h1
    have h2' : ((wmax:ℝ)) ^ 2 > 36 * (v:ℝ) := by
      have : ((wmax : ℚ) : ℝ) ^ 2 > ((36 * v : ℚ) : ℝ) := by exact_mod_cast h2
      push_cast at this
      nlinarith [this]
    nlinarith

/-! ## Claim C3: the masking geometry of `calc_noise_std` -/

/-- Claim-side masking, following the claim's words: mask the full
±10-channel neighborhood `[c-10, c+10]` (inclusive on BOTH sides, clamped at
the window edges) around an outlier channel `c`. -/
def claimSliceMask (c : ℕ) (l : List (Option ℚ)) : List (Option ℚ) :=
  (List.range l.length).map fun i =>
    if c ≤ i + 10 ∧ i ≤ c + 10 then none else l.getD i (some 0)

/-- Claim-side masking of every outlier channel. -/
def claimMaskChans (chans : List ℕ) (l : List (Option ℚ)) : List (Option ℚ) :=
  chans.foldl (fun acc c => claimSliceMask c acc) l

/-- One clip-and-recompute cycle as the claim words it: identical to
`clipOnce` except that the full two-sided ±10 neighborhood (clamped at the
edges) is masked. -/
noncomputable def clipOnceClaimed (dummy : List ℚ) (threshold : ℚ) (st : NoiseState) :
    NoiseState :=
  let masked := claimMaskChans
    (outLow dummy st.mean? st.var? threshold ++ outHigh dummy st.mean? st.var? threshold)
    st.noise
  ⟨masked, nanmean masked, nanvar masked⟩

/-- `calc_noise_std` as the claim describes it: three clip-and-recompute
cycles with the claim's two-sided clamped masking. -/
noncomputable def calc_noise_std_claimed (intensity : List ℚ) (threshold : ℚ) :
    Option ℚ × Option ℝ :=
  let s := clipOnceClaimed intensity threshold (clipOnceClaimed intensity threshold
    (clipOnceClaimed intensity threshold (initNoise intensity)))
  (s.mean?, nanstdOf s.var?)

/-- The C3 counterexample window: 17 channels, all zero except a spike of 17
at channel 2 (within 10 channels of the start). -/
def l17 : List ℚ := [0, 0, 17, 0, 0, 0, 0, 0, 0, 0, 0, 0, 0, 0, 0, 0, 0]

/-- What the script's masking actually leaves after one cycle on `l17`: the
slice `noise[2-10:2+10] = noise[-8:12]` resolves to indices 9..11, so only
those three channels are masked - the spike itself stays. -/
def l17m : List (Option ℚ) := [some 0, some 0, some 17, some 0, some 0, some 0, some 0,
  some 0, some 0, none, none, none, some 0, some 0, some 0, some 0, some 0]

/-- What the claim's masking leaves after one cycle on `l17`: channels
0..12 masked. -/
def l17c : List (Option ℚ) := [none, none, none, none, none, none, none, none, none,
  none, none, none, none, some 0, some 0, some 0, some 0]

theorem l17_init : initNoise l17 = ⟨l17.map some, some 1, some 16⟩ := by
  simp only [initNoise, NoiseState.mk.injEq]
  refine ⟨trivial, ?_, ?_⟩ <;>
    norm_num [nanmean, nanvar, validVals, l17, List.filterMap_cons, id_eq, List.cons_ne_nil]

theorem l17_outLow1 : outLow l17 (some 1) (some 16) 3.5 = [] := by
  rw [outLow_sq l17 1 16 3.5 (by norm_num) (by norm_num)]
  norm_num [l17, List.filter, List.range_succ]

theorem l17_outHigh1 : outHigh l17 (some 1) (some 16) 3.5 = [2] := by
  rw [outHigh_sq l17 1 16 3.5 (by norm_num) (by norm_num)]
  norm_num [l17, List.filter, List.range_succ]

theorem l17_outLow2 : outLow l17 (some (17/14)) (some (3757/196)) 3.5 = [] := by
  rw [outLow_sq l17 (17/14) (3757/196) 3.5 (by norm_num) (by norm_num)]
  norm_num [l17, List.filter, List.range_succ]

theorem l17_outHigh2 : outHigh l17 (some (17/14)) (some (3757/196)) 3.5 = [2] := by
  rw [outHigh_sq l17 (17/14) (3757/196) 3.5 (by norm_num) (by norm_num)]
  norm_num [l17, List.filter, List.range_succ]

theorem l17_mask1 : maskChans [2] (l17.map some) = l17m := by
  norm_num [maskChans, sliceMask, pyIdx, l17, l17m, List.range_succ]

theorem l17_mask2 : maskChans [2] l17m = l17m := by
  norm_num [maskChans, sliceMask, pyIdx, l17m, List.range_succ]

theorem l17_clip1 : clipOnce l17 3.5 (initNoise l17) =
    ⟨l17m, some (17/14), some (3757/196)⟩ := by
  rw [l17_init]
  simp only [clipOnce, l17_outLow1, l17_outHigh1, List.nil_append, l17_mask1,
    NoiseState.mk.injEq]
  refine ⟨trivial, ?_, ?_⟩ <;>
    norm_num [nanmean, nanvar, validVals, l17m, List.filterMap_cons, id_eq, List.cons_ne_nil]

theorem l17_clip2 : clipOnce l17 3.5 ⟨l17m, some (17/14), some (3757/196)⟩ =
    ⟨l17m, some (17/14), some (3757/196)⟩ := by
  simp only [clipOnce, l17_outLow2, l17_outHigh2, List.nil_append, l17_mask2,
    NoiseState.mk.injEq]
  refine ⟨trivial, ?_, ?_⟩ <;>
    norm_num [nanmean, nanvar, validVals, l17m, List.filterMap_cons, id_eq, List.cons_ne_nil]

theorem l17_code_mean : (calc_noise_std l17 3.5).1 = some (17/14) := by
  simp only [calc_noise_std, l17_clip1, l17_clip2]

theorem l17_claimMask1 : claimMaskChans [2] (l17.map some) = l17c := by
  norm_num [claimMaskChans, claimSliceMask, l17, l17c, List.range_succ]

theorem l17_claimMask2 : claimMaskChans [2] l17c = l17c := by
  norm_num [claimMaskChans, claimSliceMask, l17c, List.range_succ]

theorem l17_outLow0 : outLow l17 (some 0) (some 0) 3.5 = [] := by
  rw [outLow_sq l17 0 0 3.5 (by norm_num) (by norm_num)]
  norm_num [l17, List.filter, List.range_succ]

theorem l17_outHigh0 : outHigh l17 (some 0) (some 0) 3.5 = [2] := by
  rw [outHigh_sq l17 0 0 3.5 (by norm_num) (by norm_num)]
  norm_num [l17, List.filter, List.range_succ]

theorem l17_claimClip1 : clipOnceClaimed l17 3.5 (initNoise l17) =
    ⟨l17c, some 0, some 0⟩ := by
  rw [l17_init]
  simp only [clipOnceClaimed, l17_outLow1, l17_outHigh1, List.nil_append, l17_claimMask1,
    NoiseState.mk.injEq]
  refine ⟨trivial, ?_, ?_⟩ <;>
    norm_num [nanmean, nanvar, validVals, l17c, List.filterMap_cons, id_eq, List.cons_ne_nil]

theorem l17_claimClip2 : clipOnceClaimed l17 3.5 ⟨l17c, some 0, some 0⟩ =
    ⟨l17c, some 0, some 0⟩ := by
  simp only [clipOnceClaimed, l17_outLow0, l17_outHigh0, List.nil_append, l17_claimMask2,
    NoiseState.mk.injEq]
  refine ⟨trivial, ?_, ?_⟩ <;>
    norm_num [nanmean, nanvar, validVals, l17c, List.filterMap_cons, id_eq, List.cons_ne_nil]

theorem l17_claim_mean : (calc_noise_std_claimed l17 3.5).1 = some 0 := by
  simp only [calc_noise_std_claimed, l17_claimClip1, l17_claimClip2]

/-- C3 counterexample: on the concrete 17-channel window `l17` (spike of 17
at channel 2, threshold 3.5) the script's `calc_noise_std` disagrees with
the clip-and-recompute algorithm described by the claim
(`calc_noise_std_claimed`, which masks the full two-sided ±10-channel
neighborhood clamped at the window edges): the script's slice
`noise[-8:12]` never masks the near-edge outlier, so it returns mean 17/14,
while the claimed algorithm returns mean 0. -/
theorem C3_noise_mask_cex : calc_noise_std l17 3.5 ≠ calc_noise_std_claimed l17 3.5 := by
  intro h
  have h1 := l17_code_mean
  rw [h, l17_claim_mean] at h1
  have h2 : (17/14 : ℚ) = 0 := Option.some.inj h1.symm
  norm_num at h2

theorem sliceMask_length (a b : Int) (l : List (Option ℚ)) :
    (sliceMask a b l).length = l.length := by
  simp [sliceMask]

theorem sliceMask_getD (a b : Int) (l : List (Option ℚ)) (i : ℕ) (hi : i < l.length) :
    (sliceMask a b l).getD i (some 0) =
      if pyIdx a l.length ≤ i ∧ i < pyIdx b l.length then none else l.getD i (some 0) := by
  simp only [sliceMask]
  rw [List.getD_eq_getElem?_getD, List.getElem?_map, List.getElem?_range hi]
  simp [List.getD_eq_getElem?_getD]

theorem maskChans_length (cs : List ℕ) (l : List (Option ℚ)) :
    (maskChans cs l).length = l.length := by
  induction cs generalizing l with
  | nil => rfl
  | cons c cs ih =>
    simp only [maskChans, List.foldl_cons] at *
    rw [ih, sliceMask_length]

/-- Pointwise description of the script's one-cycle masking: channel `i`
ends up NaN exactly when it already was, or some outlier channel `c`'s
Python slice `[c-10 : c+10]` (with NumPy negative-endpoint resolution)
covers `i`. -/
theorem maskChans_getD (cs : List ℕ) (l : List (Option ℚ)) (i : ℕ) (hi : i < l.length) :
    ((maskChans cs l).getD i (some 0) = none ↔
      l.getD i (some 0) = none ∨
        ∃ c ∈ cs, pyIdx ((c:Int) - 10) l.length ≤ i ∧ i < pyIdx ((c:Int) + 10) l.length) := by
  induction cs generalizing l with
  | nil => simp [maskChans]
  | cons c cs ih =>
    have hstep : maskChans (c :: cs) l = maskChans cs (sliceMask ((c:Int) - 10) ((c:Int) + 10) l) := by
      simp [maskChans]
    have hlen : (sliceMask ((c:Int) - 10) ((c:Int) + 10) l).length = l.length :=
      sliceMask_length _ _ _
    have hi' : i < (sliceMask ((c:Int) - 10) ((c:Int) + 10) l).length := by rw [hlen]; exact hi
    rw [hstep, ih _ hi', sliceMask_getD _ _ _ _ hi, hlen]
    by_cases hc : pyIdx ((c:Int) - 10) l.length ≤ i ∧ i < pyIdx ((c:Int) + 10) l.length
    · simp only [if_pos hc, List.mem_cons]
      constructor
      · intro _
        exact Or.inr ⟨c, Or.inl rfl, hc⟩
      · intro _
        exact Or.inl trivial
    · simp only [if_neg hc, List.mem_cons]
      constructor
      · rintro (h | ⟨c', hc', hcond⟩)
        · exact Or.inl h
        · exact Or.inr ⟨c', Or.inr hc', hcond⟩
      · rintro (h | ⟨c', hc' | hc', hcond⟩)
        · exact Or.inl h
        · exact absurd (hc' ▸ hcond) hc
        · exact Or.inr ⟨c', hc', hcond⟩

/-- C3 amended: `calc_noise_std` performs exactly 3 clip-and-recompute
cycles and returns the final (mean, std); each cycle masks, around every
channel whose deviation from the current mean exceeds `threshold*std` on
either side, the channels of the PYTHON SLICE `[chan-10 : chan+10]` - the
half-open index range that, through NumPy's negative-endpoint resolution,
masks nothing at all for an outlier within 10 channels of the start of a
window of length at least 20, and masks `[chan-10, chan+10)` (10 channels
below, the channel itself and 9 above) for an interior outlier - not the
claim's two-sided ±10 neighborhood clamped at the window edges. -/
theorem C3_noise_clip_amended :
    (∀ (intensity : List ℚ) (t : ℚ),
      calc_noise_std intensity t =
        (((clipOnce intensity t)^[3] (initNoise intensity)).mean?,
          nanstdOf ((clipOnce intensity t)^[3] (initNoise intensity)).var?)) ∧
    (∀ (dummy : List ℚ) (t : ℚ) (st : NoiseState) (i : ℕ), i < st.noise.length →
      ((clipOnce dummy t st).noise.getD i (some 0) = none ↔
        st.noise.getD i (some 0) = none ∨
          ∃ c ∈ outLow dummy st.mean? st.var? t ++ outHigh dummy st.mean? st.var? t,
            pyIdx ((c:Int) - 10) st.noise.length ≤ i ∧
              i < pyIdx ((c:Int) + 10) st.noise.length)) ∧
    (∀ c n : ℕ, c < 10 → 20 ≤ n → pyIdx ((c:Int) + 10) n ≤ pyIdx ((c:Int) - 10) n) ∧
    (∀ c n : ℕ, 10 ≤ c → c + 10 ≤ n →
      pyIdx ((c:Int) - 10) n = c - 10 ∧ pyIdx ((c:Int) + 10) n = c + 10) := by
  refine ⟨?_, ?_, ?_, ?_⟩
  · intro intensity t
    have h3 : (clipOnce intensity t)^[3] (initNoise intensity) =
        clipOnce intensity t (clipOnce intensity t (clipOnce intensity t (initNoise intensity))) := by
      rw [Function.iterate_succ_apply', Function.iterate_succ_apply', Function.iterate_one]
    rw [h3]
    rfl
  · intro dummy t st i hi
    exact maskChans_getD _ _ i hi
  · intro c n hc hn
    simp only [pyIdx]
    split_ifs <;> omega
  · intro c n hc hn
    simp only [pyIdx]
    constructor <;> (split_ifs <;> omega)

/-! ## Concrete `read_file` evaluations

A one-channel spectrum whose only window is all-zero (for C4), and a
two-channel spectrum with two overlapping line windows (for C6). -/

theorem maskChans_nil (l : List (Option ℚ)) : maskChans [] l = l := rfl

theorem w0_init : initNoise [(0:ℚ)] = ⟨[some 0], some 0, some 0⟩ := by
  simp only [initNoise, NoiseState.mk.injEq]
  refine ⟨rfl, ?_, ?_⟩ <;>
    norm_num [nanmean, nanvar, validVals, List.filterMap_cons, id_eq, List.cons_ne_nil]

theorem w0_outLow : outLow [(0:ℚ)] (some 0) (some 0) 3.5 = [] := by
  rw [outLow_sq _ 0 0 3.5 (by norm_num) (by norm_num)]
  norm_num [List.filter, List.range_succ]

theorem w0_outHigh : outHigh [(0:ℚ)] (some 0) (some 0) 3.5 = [] := by
  rw [outHigh_sq _ 0 0 3.5 (by norm_num) (by norm_num)]
  norm_num [List.filter, List.range_succ]

theorem w0_clip : clipOnce [(0:ℚ)] 3.5 ⟨[some 0], some 0, some 0⟩ =
    ⟨[some 0], some 0, some 0⟩ := by
  simp only [clipOnce, w0_outLow, w0_outHigh, List.nil_append, maskChans_nil,
    NoiseState.mk.injEq]
  refine ⟨trivial, ?_, ?_⟩ <;>
    norm_num [nanmean, nanvar, validVals, List.filterMap_cons, id_eq, List.cons_ne_nil]

theorem w0_noise : calc_noise_std [(0:ℚ)] 3.5 = (some 0, nanstdOf (some 0)) := by
  simp only [calc_noise_std, w0_init, w0_clip]

theorem w0_no_interloper : ¬ interloper 0 (nanstdOf (some 0)) := by
  rw [interloper_sq 0 0 le_rfl]
  norm_num

theorem nanstd_zero : nanstdOf (some 0) = some (0:ℝ) := by
  simp [nanstdOf]

theorem yerr_zero : yerrAt (nanstdOf (some 0)) 0 = some (0:ℝ) := by
  rw [nanstd_zero]
  norm_num [yerrAt]

theorem tiny_line : processLine true [10] [0] [1] 5.8 ⟨[0], [0], [some 0], []⟩ 0 10 =
    ⟨[10], [0], [some 0], [0]⟩ := by
  have hsel : selectLocs 10 5.8 [10] = [0] := by
    norm_num [selectLocs, velWindow, velAt, List.range_succ]
  rw [processLine, hsel]
  simp only [List.map_cons, List.map_nil, List.getD_cons_zero]
  rw [w0_noise]
  have hmax : maxD [(0:ℚ)] = 0 := rfl
  rw [hmax]
  simp only [w0_no_interloper, and_false, if_false, if_neg]
  norm_num [writeIdx, writeYerr, List.range_succ, yerr_zero, maxD]

/-- The one-channel run evaluated end to end: rest frequency 10 MHz, one
channel at 10 MHz with intensity 0, `shift = 5.8` (channel velocity
5.8 km/s, inside the window), simulated intensity 1.  The flat-zero window
gives `noise_std = 0`, the channel is accepted, and the stored uncertainty
is `sqrt(0^2 + (0*0.1)^2) = 0`. -/
theorem read_file_tiny :
    read_file [10] [0] [10] [1] 5.8 false true = ([10], [0], [some 0], [0]) := by
  rw [read_file]
  have henum : ([(10:ℚ)]).enum = [(0, 10)] := rfl
  simp only [henum, List.foldl_cons, List.foldl_nil, List.length_cons, List.length_nil,
    List.replicate_succ, List.replicate_zero, Bool.false_eq_true, if_false]
  rw [tiny_line]
  norm_num [List.range_succ, List.getD_cons_zero]

/-- C4 counterexample: the claim that every entry of `read_file`'s
uncertainty array is strictly positive fails at the concrete one-channel
input of `read_file_tiny`, whose returned uncertainty array is `[0]`
(a flat-zero window has zero noise std and zero intensity, so
`sqrt(noise_std^2 + (0.1*intensity)^2) = 0`). -/
theorem C4_positive_uncertainty_cex :
    ¬ ∀ y ∈ (read_file [10] [0] [10] [1] 5.8 false true).2.2.1,
      ∀ v : ℝ, y = some v → 0 < v := by
  intro h
  have hy : some (0:ℝ) ∈ (read_file [10] [0] [10] [1] 5.8 false true).2.2.1 := by
    rw [read_file_tiny]
    exact List.mem_singleton.mpr rfl
  exact lt_irrefl 0 (h (some 0) hy 0 rfl)

theorem getD_nonneg_of_all (l : List (Option ℝ))
    (h : ∀ y ∈ l, ∀ v : ℝ, y = some v → 0 ≤ v) (i : ℕ) :
    ∀ v : ℝ, l.getD i (some 0) = some v → 0 ≤ v := by
  intro v hv
  rw [List.getD_eq_getElem?_getD] at hv
  cases hget : l[i]? with
  | none => rw [hget] at hv; simp at hv; simp [← hv]
  | some y =>
    rw [hget] at hv
    simp at hv
    exact h y (List.getElem?_mem hget) v hv

theorem writeYerr_nonneg (locs : List ℕ) (std? : Option ℝ) (intensity : List ℚ)
    (dst : List (Option ℝ)) (h : ∀ y ∈ dst, ∀ v : ℝ, y = some v → 0 ≤ v) :
    ∀ y ∈ writeYerr locs std? intensity dst, ∀ v : ℝ, y = some v → 0 ≤ v := by
  intro y hy v hv
  rcases List.mem_map.mp hy with ⟨i, _, rfl⟩
  by_cases hi : i ∈ locs
  · rw [if_pos hi] at hv
    rcases std? with _ | s
    · simp [yerrAt] at hv
    · simp only [yerrAt, Option.map_some'] at hv
      rw [← Option.some.inj hv]
      exact Real.sqrt_nonneg _
  · rw [if_neg hi] at hv
    exact getD_nonneg_of_all dst h i v hv

theorem processLine_yerr_nonneg (block : Bool) (freqs intensity int_sim : List ℚ)
    (shift : ℚ) (st : RFState) (i : ℕ) (rf : ℚ)
    (h : ∀ y ∈ st.ryerrs, ∀ v : ℝ, y = some v → 0 ≤ v) :
    ∀ y ∈ (processLine block freqs intensity int_sim shift st i rf).ryerrs,
      ∀ v : ℝ, y = some v → 0 ≤ v := by
  by_cases h1 : int_sim.getD i 0 > 0.05 * maxD int_sim
  · by_cases h2 : selectLocs rf shift freqs ≠ []
    · by_cases h3 : block = true ∧ interloper
        (maxD ((selectLocs rf shift freqs).map fun j => intensity.getD j 0))
        (calc_noise_std ((selectLocs rf shift freqs).map fun j => intensity.getD j 0) 3.5).2
      · rw [processLine, if_pos h1, if_pos h2, if_pos h3]
        exact h
      · rw [processLine, if_pos h1, if_pos h2, if_neg h3]
        exact writeYerr_nonneg _ _ _ _ h
    · rw [processLine, if_pos h1, if_neg h2]
      exact h
  · rw [processLine, if_neg h1]
    exact h

theorem foldl_yerr_nonneg (block : Bool) (freqs intensity int_sim : List ℚ) (shift : ℚ) :
    ∀ (ps : List (ℕ × ℚ)) (st : RFState),
      (∀ y ∈ st.ryerrs, ∀ v : ℝ, y = some v → 0 ≤ v) →
      ∀ y ∈ (ps.foldl (fun st p =>
        processLine block freqs intensity int_sim shift st p.1 p.2) st).ryerrs,
        ∀ v : ℝ, y = some v → 0 ≤ v := by
  intro ps
  induction ps with
  | nil => intro st h; exact h
  | cons p ps ih =>
    intro st h
    exact ih _ (processLine_yerr_nonneg block freqs intensity int_sim shift st p.1 p.2 h)

/-- C4 amended: the three arrays returned by `read_file` always have equal
length, and every DEFINED entry of the uncertainty array is nonnegative; an
entry can be zero (flat-zero window, see the counterexample) or NaN (when
the local noise estimate degenerates to NaN), so "strictly positive" weakens
to "nonnegative when defined". -/
theorem C4_grid_invariants_amended :
    (∀ (freqs0 intensity restfreqs int_sim : List ℚ) (shift : ℚ) (GHz block : Bool),
      (read_file freqs0 intensity restfreqs int_sim shift GHz block).1.length =
        (read_file freqs0 intensity restfreqs int_sim shift GHz block).2.1.length ∧
      (read_file freqs0 intensity restfreqs int_sim shift GHz block).2.1.length =
        (read_file freqs0 intensity restfreqs int_sim shift GHz block).2.2.1.length) ∧
    (∀ (freqs0 intensity restfreqs int_sim : List ℚ) (shift : ℚ) (GHz block : Bool),
      ∀ y ∈ (read_file freqs0 intensity restfreqs int_sim shift GHz block).2.2.1,
        ∀ v : ℝ, y = some v → 0 ≤ v) := by
  constructor
  · intro freqs0 intensity restfreqs int_sim shift GHz block
    constructor <;> simp [read_file]
  · intro freqs0 intensity restfreqs int_sim shift GHz block y hy v hv
    simp only [read_file] at hy
    rcases List.mem_map.mp hy with ⟨i, _, rfl⟩
    refine getD_nonneg_of_all _ ?_ i v hv
    apply foldl_yerr_nonneg
    intro y hy' v' hv'
    rw [List.eq_of_mem_replicate hy'] at hv'
    simp at hv'
    simp [← hv']

theorem w10_init : initNoise [(10:ℚ)] = ⟨[some 10], some 10, some 0⟩ := by
  simp only [initNoise, NoiseState.mk.injEq]
  refine ⟨rfl, ?_, ?_⟩ <;>
    norm_num [nanmean, nanvar, validVals, List.filterMap_cons, id_eq, List.cons_ne_nil]

theorem w10_outLow : outLow [(10:ℚ)] (some 10) (some 0) 3.5 = [] := by
  rw [outLow_sq _ 10 0 3.5 (by norm_num) (by norm_num)]
  norm_num [List.filter, List.range_succ]

theorem w10_outHigh : outHigh [(10:ℚ)] (some 10) (some 0) 3.5 = [] := by
  rw [outHigh_sq _ 10 0 3.5 (by norm_num) (by norm_num)]
  norm_num [List.filter, List.range_succ]

theorem w10_clip : clipOnce [(10:ℚ)] 3.5 ⟨[some 10], some 10, some 0⟩ =
    ⟨[some 10], some 10, some 0⟩ := by
  simp only [clipOnce, w10_outLow, w10_outHigh, List.nil_append, maskChans_nil,
    NoiseState.mk.injEq]
  refine ⟨trivial, ?_, ?_⟩ <;>
    norm_num [nanmean, nanvar, validVals, List.filterMap_cons, id_eq, List.cons_ne_nil]

theorem w10_noise : calc_noise_std [(10:ℚ)] 3.5 = (some 10, nanstdOf (some 0)) := by
  simp only [calc_noise_std, w10_init, w10_clip]

theorem w10_interloper : interloper 10 (nanstdOf (some 0)) := by
  rw [interloper_sq 10 0 le_rfl]
  norm_num

theorem w410_init : initNoise [(4:ℚ), 10] = ⟨[some 4, some 10], some 7, some 9⟩ := by
  simp only [initNoise, NoiseState.mk.injEq]
  refine ⟨rfl, ?_, ?_⟩ <;>
    norm_num [nanmean, nanvar, validVals, List.filterMap_cons, id_eq, List.cons_ne_nil]

theorem w410_outLow : outLow [(4:ℚ), 10] (some 7) (some 9) 3.5 = [] := by
  rw [outLow_sq _ 7 9 3.5 (by norm_num) (by norm_num)]
  norm_num [List.filter, List.range_succ]

theorem w410_outHigh : outHigh [(4:ℚ), 10] (some 7) (some 9) 3.5 = [] := by
  rw [outHigh_sq _ 7 9 3.5 (by norm_num) (by norm_num)]
  norm_num [List.filter, List.range_succ]

theorem w410_clip : clipOnce [(4:ℚ), 10] 3.5 ⟨[some 4, some 10], some 7, some 9⟩ =
    ⟨[some 4, some 10], some 7, some 9⟩ := by
  simp only [clipOnce, w410_outLow, w410_outHigh, List.nil_append, maskChans_nil,
    NoiseState.mk.injEq]
  refine ⟨trivial, ?_, ?_⟩ <;>
    norm_num [nanmean, nanvar, validVals, List.filterMap_cons, id_eq, List.cons_ne_nil]

theorem w410_noise : calc_noise_std [(4:ℚ), 10] 3.5 = (some 7, nanstdOf (some 9)) := by
  simp only [calc_noise_std, w410_init, w410_clip]

theorem w410_no_interloper : ¬ interloper 10 (nanstdOf (some 9)) := by
  rw [interloper_sq 10 9 (by norm_num)]
  norm_num

theorem sel_lineA : selectLocs 300000 0 [299993.5, 299994] = [1] := by
  norm_num [selectLocs, velWindow, velAt, List.range_succ]

theorem sel_lineB : selectLocs 299999.5 0 [299993.5, 299994] = [0, 1] := by
  norm_num [selectLocs, velWindow, velAt, List.range_succ]

theorem lineA_blocked : processLine true [299993.5, 299994] [4, 10] [1, 1] 0
    ⟨[0, 0], [0, 0], [some 0, some 0], []⟩ 0 300000 =
    ⟨[0, 0], [0, 0], [some 0, some 0], []⟩ := by
  rw [processLine, sel_lineA]
  simp only [List.map_cons, List.map_nil, List.getD_cons_succ, List.getD_cons_zero]
  rw [w10_noise]
  have hmax : maxD [(10:ℚ)] = 10 := rfl
  rw [hmax]
  have hcond : (true = true ∧ interloper 10 (some 10, nanstdOf (some 0)).2) := by
    exact ⟨rfl, w10_interloper⟩
  norm_num [hcond, maxD]

theorem lineB_accepted : processLine true [299993.5, 299994] [4, 10] [1, 1] 0
    ⟨[0, 0], [0, 0], [some 0, some 0], []⟩ 1 299999.5 =
    ⟨[299993.5, 299994], [4, 10],
      [yerrAt (nanstdOf (some 9)) 4, yerrAt (nanstdOf (some 9)) 10], [1]⟩ := by
  rw [processLine, sel_lineB]
  simp only [List.map_cons, List.map_nil, List.getD_cons_succ, List.getD_cons_zero]
  rw [w410_noise]
  have hmax : maxD [(4:ℚ), 10] = 10 := by norm_num [maxD]
  rw [hmax]
  simp only [w410_no_interloper, and_false, if_false, if_neg]
  norm_num [writeIdx, writeYerr, List.range_succ, maxD, List.cons_ne_nil]

/-- The two-channel run evaluated end to end: channels at 299993.5 and
299994 MHz with intensities 4 and 10; rest frequency 300000 MHz (line 0)
covers only the 299994 channel (velocity 6 km/s) and is blocked as an
interloper (its window max 10 exceeds 6 times its zero noise std); rest
frequency 299999.5 MHz (line 1) covers both channels and is accepted. -/
theorem read_file_two :
    read_file [299993.5, 299994] [4, 10] [300000, 299999.5] [1, 1] 0 false true =
      ([299993.5, 299994], [4, 10],
        [yerrAt (nanstdOf (some 9)) 4, yerrAt (nanstdOf (some 9)) 10], [1]) := by
  rw [read_file]
  have henum : ([(300000:ℚ), 299999.5]).enum = [(0, 300000), (1, 299999.5)] := rfl
  simp only [henum, List.foldl_cons, List.foldl_nil, List.length_cons, List.length_nil,
    List.replicate_succ, List.replicate_zero, Bool.false_eq_true, if_false]
  rw [lineA_blocked, lineB_accepted]
  norm_num [List.range_succ, List.getD_cons_succ, List.getD_cons_zero]

/-- C6 counterexample: the claim says a window blocked as interloping
contributes NO channels to the returned arrays.  On the concrete two-line
input of `read_file_two`, line 0's window is exactly the channel at
299994 MHz and it IS blocked (index 0 absent from `covered_trans`), yet
299994 appears in the returned frequency array, because the overlapping
accepted window of line 1 writes that same channel. -/
theorem C6_blocked_channels_cex :
    selectLocs 300000 0 [299993.5, 299994] = [1] ∧
    interloper (maxD ((selectLocs 300000 0 [299993.5, 299994]).map
        fun j => ([4, 10] : List ℚ).getD j 0))
      (calc_noise_std ((selectLocs 300000 0 [299993.5, 299994]).map
        fun j => ([4, 10] : List ℚ).getD j 0) 3.5).2 ∧
    (read_file [299993.5, 299994] [4, 10] [300000, 299999.5] [1, 1] 0 false true).2.2.2
      = [1] ∧
    (299994 : ℚ) ∈
      (read_file [299993.5, 299994] [4, 10] [300000, 299999.5] [1, 1] 0 false true).1 := by
  refine ⟨sel_lineA, ?_, ?_, ?_⟩
  · rw [sel_lineA]
    simp only [List.map_cons, List.map_nil, List.getD_cons_succ, List.getD_cons_zero]
    rw [w10_noise]
    exact w10_interloper
  · rw [read_file_two]
  · rw [read_file_two]
    right
    exact List.mem_singleton.mpr rfl

/-- C6 amended: a window whose peak intensity exceeds 6 times the local
noise std is, with `block_interlopers=True`, discarded by its own loop
iteration - the line's index is not added to `covered_trans` and the
iteration writes none of its channels (the iteration is the identity on the
accumulator); a channel of the blocked window can still appear in the final
output only when some OTHER accepted window overlaps it (see the
counterexample).  With `block_interlopers=False` the same window is
accepted: the index is recorded and the window's channels are written. -/
theorem C6_interloper_amended :
    (∀ (freqs intensity int_sim : List ℚ) (shift : ℚ) (st : RFState) (i : ℕ) (rf : ℚ),
      int_sim.getD i 0 > 0.05 * maxD int_sim →
      selectLocs rf shift freqs ≠ [] →
      interloper (maxD ((selectLocs rf shift freqs).map fun j => intensity.getD j 0))
        (calc_noise_std ((selectLocs rf shift freqs).map fun j => intensity.getD j 0) 3.5).2 →
      processLine true freqs intensity int_sim shift st i rf = st) ∧
    (∀ (freqs intensity int_sim : List ℚ) (shift : ℚ) (st : RFState) (i : ℕ) (rf : ℚ),
      int_sim.getD i 0 > 0.05 * maxD int_sim →
      selectLocs rf shift freqs ≠ [] →
      processLine false freqs intensity int_sim shift st i rf =
        ⟨writeIdx (selectLocs rf shift freqs) freqs st.rfreqs,
          writeIdx (selectLocs rf shift freqs) intensity st.rints,
          writeYerr (selectLocs rf shift freqs)
            (calc_noise_std ((selectLocs rf shift freqs).map fun j => intensity.getD j 0) 3.5).2
            intensity st.ryerrs,
          st.covered ++ [i]⟩) := by
  constructor
  · intro freqs intensity int_sim shift st i rf h1 h2 h3
    rw [processLine, if_pos h1, if_pos h2, if_pos ⟨rfl, h3⟩]
  · intro freqs intensity int_sim shift st i rf h1 h2
    rw [processLine, if_pos h1, if_pos h2, if_neg (by simp)]
